import Mathlib

/-!
Shallow embedding of `custom_components/terncy/core/gateway.py`
(class `TerncyGateway`) and verification of the specification claims.

Conventions of the embedding:
* Python dicts (`parsed_devices`, `_listeners`, `room_data`, `scenes`,
  attribute states) become insertion-ordered association lists
  `List (String × β)`: `alSet` replaces the binding of an existing key in
  place and appends a fresh key at the end, exactly like a Python dict
  assignment; `alLookup` is `dict.get`; `alRemove` is `dict.pop`.
* Raising dict accesses (`d["k"]`) become `Except`-valued code (the error is
  the propagated `KeyError`/`IndexError`); `d.get("k")` becomes an `Option`
  field read with the source's default.
* External collaborators (the `PROFILES` table, the Home-Assistant device
  registry) are inputs (`Env`); calls with externally visible consequences
  (registry creation/removal, bus events, device triggers, listener
  callbacks, log lines) are recorded in an `Effect` trace in call order.
* Code of the repository that is not under `src/` (`TerncyDevice`,
  `TerncyEntity`, `create_entity`, the constant tables of `const.py`) is
  modelled from the spec; each such definition carries a doc comment
  starting with `Modelled from the spec:`.
-/

namespace TerncyGw

/-! ## Association lists (Python dict model) -/

/-- Attribute values carried in hub payloads (JSON numbers, strings, booleans). -/
inductive AVal where
  | int (n : Int)
  | str (s : String)
  | bool (b : Bool)
  deriving DecidableEq, Repr

/-- Dict assignment `m[a] = v`: replace the binding of an existing key in
place, append a fresh key at the end (Python dict insertion order). -/
def alSet {β : Type} : List (String × β) → String → β → List (String × β)
  | [], a, v => [(a, v)]
  | (b, w) :: rest, a, v =>
    if b = a then (a, v) :: rest else (b, w) :: alSet rest a v

/-- Dict lookup `m.get(a)`. -/
def alLookup {β : Type} : List (String × β) → String → Option β
  | [], _ => none
  | (b, w) :: rest, a => if b = a then some w else alLookup rest a

/-- Dict removal `m.pop(a)` (keys are unique in a dict, so removing every
entry with the key is the same operation). -/
def alRemove {β : Type} (m : List (String × β)) (a : String) : List (String × β) :=
  m.filter (fun p => p.1 ≠ a)

/-- The key sequence of a dict. -/
def alKeys {β : Type} (m : List (String × β)) : List String :=
  m.map Prod.fst

/-! ## Attribute-state merging (spec §4.3a) -/

/-- An entity's current attribute state: an `attr ↦ value` dict. -/
abbrev AttrState := List (String × AVal)

/-- Modelled from the spec: `TerncyEntity.update_state` (file
`hass/entity.py` is not under `src/`) "merges a list of `{attr, value}`
pairs into current Entity state", one dict write per pair in list order. -/
def mergeAttrs : AttrState → List (String × AVal) → AttrState
  | st, [] => st
  | st, (a, v) :: ps => mergeAttrs (alSet st a v) ps

/-- The value a pair list finally leaves at a key (last write wins). -/
def lastWrite : List (String × AVal) → String → Option AVal
  | [], _ => none
  | (b, w) :: ps, a =>
    match lastWrite ps a with
    | some v => some v
    | none => if b = a then some w else none

/-! ## Hub payloads (the untyped JSON dicts of an `EventMessage`) -/

/-- One JSON attribute object inside a payload's `attributes` list.
`report` payloads use `attr`/`value`; `keyPressed` payloads use `times`.
A field read with `["…"]` on a missing key raises, which the handlers
model with `Except`. -/
structure AttrObj where
  attr : Option String := none
  value : Option AVal := none
  times : Option Int := none
  deriving DecidableEq, Repr

/-- One service dict of a device payload (`svc_list` entry). -/
structure SvcData where
  id : Option String := none
  name : Option String := none
  profile : Option Int := none
  attributes : Option (List AttrObj) := none
  room : Option String := none
  deriving DecidableEq, Repr

/-- One per-entity payload of an `EventMessage` (`msg["entities"]` entry).
The fields cover the union of shapes the per-type handlers read; a field
the hub did not send is `none`. `actions` entries and the scene `on`
value are opaque `AVal`s. -/
structure Payload where
  id : Option String := none
  ptype : Option String := none
  attributes : Option (List AttrObj) := none
  services : Option (List SvcData) := none
  name : Option String := none
  model : Option String := none
  version : Option Int := none
  hwVersion : Option Int := none
  online : Option Bool := none
  room : Option String := none
  profile : Option Int := none
  actions : Option (List AVal) := none
  onVal : Option AVal := none
  deriving DecidableEq, Repr

/-- The inbound message envelope `EventMessage.msg`. -/
structure Msg where
  entities : Option (List Payload) := none
  mtype : Option String := none
  deriving DecidableEq, Repr

/-- One session event delivered by the `terncy` SessionClient. -/
inductive TEvent where
  | eventMessage (msg : Msg)
  | connected
  | disconnected
  | unknown
  deriving DecidableEq, Repr

/-! ## Local records (`TerncyDevice` / `TerncyEntity`) -/

/-- An entry of the static `PROFILES` table: a presentation-entity
description with its required-attribute set (`profiles/__init__.py`,
external to the core file). -/
structure TerncyEntityDescription where
  key : String
  required_attrs : List String := []
  deriving DecidableEq, Repr

/-- Modelled from the spec: the presentation object `TerncyEntity`
(files `hass/entity.py` / `hass/add_entities.py` are not under `src/`):
a display name (`_attr_name`), an availability flag and the merged
attribute state. `eid` is the hub entity id the object is keyed by. -/
structure TerncyEntity where
  eid : String
  key : String
  name : String := ""
  available : Bool := true
  state : AttrState := []
  deriving DecidableEq, Repr

/-- Modelled from the spec: `TerncyEntity.set_available` is an idempotent
availability-flag write. -/
def TerncyEntity.set_available (e : TerncyEntity) (b : Bool) : TerncyEntity :=
  { e with available := b }

/-- Modelled from the spec: `TerncyEntity.update_state` merges the
`{attr, value}` pairs of a raw attribute list into the current state
(pairs missing either field carry nothing to merge). -/
def TerncyEntity.update_state (e : TerncyEntity) (attrs : List AttrObj) : TerncyEntity :=
  { e with state := mergeAttrs e.state (attrs.filterMap fun a => a.attr.bind fun k => a.value.map fun v => (k, v)) }

/-- Modelled from the spec: `create_entity` instantiates one presentation
object per surviving description, holding the initial attribute state. -/
def create_entity (eid : String) (desc : TerncyEntityDescription)
    (attributes : List AttrObj) : TerncyEntity :=
  (TerncyEntity.mk eid desc.key "" true []).update_state attributes

/-- Modelled from the spec: the local Device record `TerncyDevice`
(file `core/device.py` is not under `src/`): owning device id `did`,
its own entity id `eid`, profile classifier, availability flag and the
attached presentation objects. -/
structure TerncyDevice where
  did : String
  eid : String
  profile : Option Int := none
  available : Bool := true
  entities : List TerncyEntity := []
  deriving DecidableEq, Repr

/-- Modelled from the spec: `TerncyDevice.set_available` writes the
availability flag through to every attached presentation object. -/
def TerncyDevice.set_available (d : TerncyDevice) (b : Bool) : TerncyDevice :=
  { d with available := b, entities := d.entities.map (fun e => e.set_available b) }

/-- Modelled from the spec: `TerncyDevice.update_state` propagates an
attribute update to every attached presentation object. -/
def TerncyDevice.update_state (d : TerncyDevice) (attrs : List AttrObj) : TerncyDevice :=
  { d with entities := d.entities.map (fun e => e.update_state attrs) }

/-! ## Gateway state, environment and observable effects -/

/-- The mutable state of one `TerncyGateway` instance that the event
handlers read and write. Listener callbacks are abstracted to
numeric tokens (the registry is a per-eid set of callbacks). -/
structure GwState where
  stopped : Bool := false
  parsed_devices : List (String × TerncyDevice) := []
  listeners : List (String × List Nat) := []
  room_data : List (String × String) := []
  scenes : List (String × TerncyEntity) := []
  export_device_groups : Bool := true
  export_scenes : Bool := false
  uniqueId : String := ""
  deriving DecidableEq, Repr

/-- External collaborators consumed by the gateway: the static profile
table and the host device registry (`dr.async_get_device` keyed by the
`(DOMAIN, eid)` identifier, returning the registry entry id). -/
structure Env where
  profiles : Int → Option (List TerncyEntityDescription)
  registry : String → Option String

/-- Externally observable consequences of handling one event, in call
order: listener callbacks, device triggers, host bus events, registry
creations/removals, presentation-entity additions/removals, availability
writes, scheduled background work and log lines. -/
inductive Effect where
  | notify (listener : Nat) (eid : String) (data : List AttrObj)
  | apiWrite (eid : String) (attrs : List AttrObj) (method : Int)
  | triggerEvent (eid : String) (label : String) (times : Option Int)
  | busFire (eventName : String) (deviceEntryId : String) (source : String) (times : Option Int)
  | registryCreate (ident : String)
  | removeDeviceEntry (entryId : String)
  | removeEntity (eid : String)
  | addEntity (eid : String) (key : String)
  | setAvail (eid : String) (online : Bool)
  | scheduleReconnect
  | scheduleRefresh
  | logDebug (tag : String)
  | logWarning (tag : String)
  | logInfo (tag : String)
  deriving DecidableEq, Repr

/-! ## Constants from `const.py` (not under `src/`) -/

/-- The integration domain identifier. -/
def DOMAIN : String := "terncy"

/-- Modelled from the spec: the generic single-press event label
(`ACTION_SINGLE_PRESS` in `const.py`). -/
def ACTION_SINGLE_PRESS : String := "single_press"

/-- Modelled from the spec: `ACTION_PRESSED`, the host bus event suffix
for key presses. -/
def ACTION_PRESSED : String := "pressed"

/-- Modelled from the spec: `ACTION_LONG_PRESS`. -/
def ACTION_LONG_PRESS : String := "long_press"

/-- Modelled from the spec: `ACTION_ROTATION`. -/
def ACTION_ROTATION : String := "rotation"

/-- Modelled from the spec: `EVENT_ENTITY_BUTTON_EVENTS`, the static
table mapping a press count in `[1, 9]` to its canonical
"N presses" event label (`const.py` is not under `src/`). -/
def EVENT_ENTITY_BUTTON_EVENTS : Int → Option String
  | 1 => some "single_press"
  | 2 => some "double_press"
  | 3 => some "triple_press"
  | 4 => some "quadruple_press"
  | 5 => some "quintuple_press"
  | 6 => some "sextuple_press"
  | 7 => some "septuple_press"
  | 8 => some "octuple_press"
  | 9 => some "nonuple_press"
  | _ => none

/-! ## Gateway methods (`gateway.py`)

Pure `logger.debug` tracing is elided from the effect trace except where a
claim's wording depends on it (the dispatcher's silent heartbeat branch and
the unsupported-profile skip); warnings and info lines are kept. Arguments
of host-registry creation calls (names, versions, suggested areas) are
below the granularity of the trace, which records the call and the
identifier it is keyed by. -/

/-- `update_listeners`: invoke every callback registered for the eid;
a missing eid is a silent no-op. -/
def updateListeners (s : GwState) (eid : String) (data : List AttrObj) : List Effect :=
  match alLookup s.listeners eid with
  | some ls => ls.map (fun l => Effect.notify l eid data)
  | none => []

/-- `set_attribute`: write through the SessionClient (`apiResult` is the
outcome of `await api.set_attribute(...)`; an error propagates), then
optimistically push `[{"attr": attr, "value": value}]` to local listeners. -/
def set_attribute (s : GwState) (apiResult : Except String Unit) (eid attr : String)
    (value : AVal) (method : Int) : Except String (List Effect) :=
  match apiResult with
  | .error e => .error e
  | .ok _ =>
    .ok (Effect.apiWrite eid [{ attr := some attr, value := some value }] method ::
      updateListeners s eid [{ attr := some attr, value := some value }])

/-- `set_attributes`: the list form of `set_attribute`. -/
def set_attributes (s : GwState) (apiResult : Except String Unit) (eid : String)
    (attrs : List AttrObj) (method : Int) : Except String (List Effect) :=
  match apiResult with
  | .error e => .error e
  | .ok _ => .ok (Effect.apiWrite eid attrs method :: updateListeners s eid attrs)

/-- The body of the `_on_report` loop: `id` is read with `.get` (a payload
without it updates no listener, since `None` is never a listener key). -/
def onReportLoop (s : GwState) : List Payload → List Effect
  | [] => []
  | p :: rest =>
    (match p.id with
     | some eid => updateListeners s eid (p.attributes.getD [])
     | none => []) ++ onReportLoop s rest

/-- The label computation of `_on_key_pressed`: the
`EVENT_ENTITY_BUTTON_EVENTS` table is only indexed when
`1 <= times <= 9`; outside that range the generic single-press label is
used. -/
def resolveKeyLabel (times : Int) : Except String String :=
  if 1 ≤ times ∧ times ≤ 9 then
    match EVENT_ENTITY_BUTTON_EVENTS times with
    | some l => .ok l
    | none => .error "KeyError: EVENT_ENTITY_BUTTON_EVENTS"
  else .ok ACTION_SINGLE_PRESS

/-- The body of the `_on_key_pressed` loop for one payload: a payload
without an `attributes` key is skipped; otherwise `id`,
`attributes[0]["times"]` are raising reads, the label is resolved, and
the local device trigger and the host bus event fire independently,
each only if its target exists. -/
def onKeyPressedItem (env : Env) (s : GwState) (p : Payload) : Except String (List Effect) :=
  match p.attributes with
  | none => .ok []
  | some attrList =>
    match p.id with
    | none => .error "KeyError: id"
    | some eid =>
      match attrList with
      | [] => .error "IndexError: attributes"
      | a0 :: _ =>
        match a0.times with
        | none => .error "KeyError: times"
        | some times =>
          match resolveKeyLabel times with
          | .error e => .error e
          | .ok label =>
            .ok ((match alLookup s.parsed_devices eid with
                  | some _ => [Effect.triggerEvent eid label (some times)]
                  | none => []) ++
                 (match env.registry eid with
                  | some entryId =>
                    [Effect.busFire (DOMAIN ++ "_" ++ ACTION_PRESSED) entryId eid (some times)]
                  | none => []))

/-- `_on_key_pressed` over the whole `entities` list. -/
def onKeyPressedLoop (env : Env) (s : GwState) : List Payload → Except String (List Effect)
  | [] => .ok []
  | p :: rest =>
    match onKeyPressedItem env s p with
    | .error e => .error e
    | .ok e1 =>
      match onKeyPressedLoop env s rest with
      | .error e => .error e
      | .ok e2 => .ok (e1 ++ e2)

/-- The shared body of `_on_key_long_pressed` and `_on_rotation`: the same
dual-channel notification without a `times` payload. -/
def dualChannelLoop (env : Env) (s : GwState) (label : String) :
    List Payload → Except String (List Effect)
  | [] => .ok []
  | p :: rest =>
    match p.id with
    | none => .error "KeyError: id"
    | some eid =>
      match dualChannelLoop env s label rest with
      | .error e => .error e
      | .ok e2 =>
        .ok ((match alLookup s.parsed_devices eid with
              | some _ => [Effect.triggerEvent eid label none]
              | none => []) ++
             (match env.registry eid with
              | some entryId => [Effect.busFire (DOMAIN ++ "_" ++ label) entryId eid none]
              | none => []) ++ e2)

/-- The scene-id test `did.startswith("scene-")`, written as a
character-list prefix check. -/
def isSceneId (did : String) : Bool :=
  "scene-".data.isPrefixOf did.data

/-- The inner loop of `_on_entity_deleted`'s device branch: for every
`(eid, device)` in `will_delete`, mark it unavailable, remove the host
registry entry if one exists, and pop the eid from `parsed_devices`. -/
def deleteDevices (env : Env) : GwState → List (String × TerncyDevice) → GwState × List Effect
  | s, [] => (s, [])
  | s, (eid, d) :: rest =>
    let effs1 := Effect.setAvail d.eid false ::
      (match env.registry eid with
       | some entryId => [Effect.removeDeviceEntry entryId]
       | none => [])
    let s1 := { s with parsed_devices := alRemove s.parsed_devices eid }
    let r := deleteDevices env s1 rest
    (r.1, effs1 ++ r.2)

/-- The body of the `_on_entity_deleted` loop for one payload id: the
scene branch (prefix `scene-`) soft-disables and drops the scene and
removes its presentation entity; the device branch deletes every owned
Entity. `set_available(False)` on the scene mutates the object being
dropped; the availability write and the removal stay visible. -/
def onEntityDeletedItem (env : Env) (s : GwState) (p : Payload) :
    Except String (GwState × List Effect) :=
  match p.id with
  | none => .error "KeyError: id"
  | some did =>
    if isSceneId did then
      match alLookup s.scenes did with
      | some scene =>
        .ok ({ s with scenes := alRemove s.scenes did },
             [Effect.setAvail scene.eid false, Effect.removeEntity scene.eid])
      | none => .ok (s, [])
    else
      .ok (deleteDevices env s (s.parsed_devices.filter (fun q => q.2.did = did)))

/-- `_on_entity_deleted` over the whole `entities` list. -/
def onEntityDeletedLoop (env : Env) : GwState → List Payload → Except String (GwState × List Effect)
  | s, [] => .ok (s, [])
  | s, p :: rest =>
    match onEntityDeletedItem env s p with
    | .error e => .error e
    | .ok (s1, e1) =>
      match onEntityDeletedLoop env s1 rest with
      | .error e => .error e
      | .ok (s2, e2) => .ok (s2, e1 ++ e2)

/-- The raising list comprehension `[a["attr"] for a in attributes]`. -/
def attrNames : List AttrObj → Except String (List String)
  | [] => .ok []
  | a :: rest =>
    match a.attr with
    | none => .error "KeyError: attr"
    | some n => (attrNames rest).map (fun ns => n :: ns)

/-- The per-service loop of `setup_device`: update an already-known eid in
place; otherwise classify the profile against the `PROFILES` table,
filter descriptions by required attributes, and create the registry
entry, the local record and its presentation objects only if at least
one description survives.  Whether created or pre-existing, availability
and attribute state are applied at the end of the iteration; for a
skipped service the orphan record's update touches no gateway state. -/
def setupSvcs (env : Env) : GwState → String → Bool → List SvcData →
    Except String (GwState × List Effect)
  | s, _, _, [] => .ok (s, [])
  | s, did, online, svc :: rest =>
    match svc.id, svc.name with
    | some eid, some _name0 =>
      let attributes := svc.attributes.getD []
      match alLookup s.parsed_devices eid with
      | some device =>
        let device1 := (device.set_available online).update_state attributes
        let s1 := { s with parsed_devices := alSet s.parsed_devices eid device1 }
        (setupSvcs env s1 did online rest).map
          (fun r => (r.1, Effect.setAvail device.eid online :: r.2))
      | none =>
        match svc.profile.bind env.profiles with
        | some descs =>
          match attrNames attributes with
          | .error e => .error e
          | .ok attrs =>
            let descriptions := descs.filter
              (fun d => d.required_attrs.isEmpty || d.required_attrs.all (fun r => attrs.contains r))
            if descriptions.isEmpty then
              (setupSvcs env s did online rest).map
                (fun r => (r.1, Effect.setAvail eid online :: r.2))
            else
              let dev0 : TerncyDevice :=
                ⟨did, eid, svc.profile, true, descriptions.map (fun d => create_entity eid d attributes)⟩
              let dev1 := (dev0.set_available online).update_state attributes
              let s1 := { s with parsed_devices := alSet s.parsed_devices eid dev1 }
              (setupSvcs env s1 did online rest).map (fun r =>
                (r.1, Effect.registryCreate eid ::
                  (descriptions.map (fun d => Effect.addEntity eid d.key) ++
                    Effect.setAvail eid online :: r.2)))
        | none =>
          (setupSvcs env s did online rest).map
            (fun r => (r.1, Effect.logDebug "Unsupported profile" :: Effect.setAvail eid online :: r.2))
    | _, _ => .error "KeyError: svc id or name"

/-- `setup_device`: resolve metadata, upsert the gateway's own registry
entry when the device id is the gateway's unique id, then run the
per-service loop. -/
def setup_device (env : Env) (s : GwState) (p : Payload) (svcs : List SvcData) :
    Except String (GwState × List Effect) :=
  match p.id with
  | none => .error "KeyError: id"
  | some did =>
    let online := p.online.getD true
    match setupSvcs env s did online svcs with
    | .error e => .error e
    | .ok (s1, effs) =>
      .ok (s1, (if did = s.uniqueId then [Effect.registryCreate s.uniqueId] else []) ++ effs)

/-- `setup_device_group`: Device Setup specialised to a service list
containing exactly the device-group record itself. -/
def setup_device_group (env : Env) (s : GwState) (p : Payload) :
    Except String (GwState × List Effect) :=
  setup_device env s p [⟨p.id, p.name, p.profile, p.attributes, p.room⟩]

/-- The `_on_entity_available` loop: only payloads of declared type
`device` run Device Setup; `token` is a no-op; anything else is logged
as unsupported. -/
def onEntityAvailableLoop (env : Env) : GwState → List Payload →
    Except String (GwState × List Effect)
  | s, [] => .ok (s, [])
  | s, p :: rest =>
    match p.ptype with
    | none => .error "KeyError: type"
    | some t =>
      if t = "device" then
        match setup_device env s p (p.services.getD []) with
        | .error e => .error e
        | .ok (s1, e1) =>
          match onEntityAvailableLoop env s1 rest with
          | .error e => .error e
          | .ok (s2, e2) => .ok (s2, e1 ++ e2)
      else if t = "token" then onEntityAvailableLoop env s rest
      else
        (onEntityAvailableLoop env s rest).map
          (fun r => (r.1, Effect.logWarning "entityAvailable: UNSUPPORTED TYPE" :: r.2))

/-- `setup_scene`: a no-op when scene export is disabled; a scene with an
empty action list is soft-disabled if already known and otherwise
ignored; a scene with actions is created (with a gateway-prefixed
presentation entity) or renamed in place, then availability and the
synthetic `on` attribute are applied. -/
def setup_scene (s : GwState) (p : Payload) : Except String (GwState × List Effect) :=
  if !s.export_scenes then .ok (s, [])
  else
    match p.id with
    | none => .error "KeyError: id"
    | some scene_id =>
      if (p.actions.getD []).length = 0 then
        match alLookup s.scenes scene_id with
        | some entity =>
          .ok ({ s with scenes := alSet s.scenes scene_id (entity.set_available false) },
               [Effect.setAvail entity.eid false])
        | none => .ok (s, [])
      else
        let name := match p.name with
          | some n => if n = "" then scene_id else n
          | none => scene_id
        let online := p.online.getD true
        match p.onVal with
        | none => .error "KeyError: on"
        | some onv =>
          let init_states : List AttrObj := [{ attr := some "on", value := some onv }]
          match alLookup s.scenes scene_id with
          | none =>
            let entity0 := { create_entity scene_id ⟨"scene", []⟩ init_states with name := name }
            let entity1 := (entity0.set_available online).update_state init_states
            .ok ({ s with scenes := alSet s.scenes scene_id entity1 },
                 [Effect.addEntity scene_id "scene", Effect.setAvail scene_id online])
          | some entity =>
            let entity1 := (({ entity with name := name }).set_available online).update_state init_states
            .ok ({ s with scenes := alSet s.scenes scene_id entity1 },
                 [Effect.setAvail entity.eid online])

/-- The `_on_entity_updated` loop: `scene` runs Scene Setup, `user` is
ignored, anything else is logged. -/
def onEntityUpdatedLoop (env : Env) : GwState → List Payload →
    Except String (GwState × List Effect)
  | s, [] => .ok (s, [])
  | s, p :: rest =>
    match p.ptype with
    | none => .error "KeyError: type"
    | some t =>
      if t = "scene" then
        match setup_scene s p with
        | .error e => .error e
        | .ok (s1, e1) =>
          match onEntityUpdatedLoop env s1 rest with
          | .error e => .error e
          | .ok (s2, e2) => .ok (s2, e1 ++ e2)
      else if t = "user" then onEntityUpdatedLoop env s rest
      else
        (onEntityUpdatedLoop env s rest).map
          (fun r => (r.1, Effect.logInfo "entityUpdated: UNSUPPORTED TYPE" :: r.2))

/-- The `_on_entity_created` loop: `scene` runs Scene Setup,
`devicegroup` runs device-group setup, anything else is logged. -/
def onEntityCreatedLoop (env : Env) : GwState → List Payload →
    Except String (GwState × List Effect)
  | s, [] => .ok (s, [])
  | s, p :: rest =>
    match p.ptype with
    | none => .error "KeyError: type"
    | some t =>
      if t = "scene" then
        match setup_scene s p with
        | .error e => .error e
        | .ok (s1, e1) =>
          match onEntityCreatedLoop env s1 rest with
          | .error e => .error e
          | .ok (s2, e2) => .ok (s2, e1 ++ e2)
      else if t = "devicegroup" then
        match setup_device_group env s p with
        | .error e => .error e
        | .ok (s1, e1) =>
          match onEntityCreatedLoop env s1 rest with
          | .error e => .error e
          | .ok (s2, e2) => .ok (s2, e1 ++ e2)
      else
        (onEntityCreatedLoop env s rest).map
          (fun r => (r.1, Effect.logDebug "entityCreated: UNSUPPORTED TYPE" :: r.2))

/-- The `_on_offline` loop: mark every device owned by each reported id
unavailable. -/
def onOfflineLoop : GwState → List Payload → Except String (GwState × List Effect)
  | s, [] => .ok (s, [])
  | s, p :: rest =>
    match p.id with
    | none => .error "KeyError: id"
    | some did =>
      let s1 := { s with parsed_devices :=
        s.parsed_devices.map (fun q => if q.2.did = did then (q.1, q.2.set_available false) else q) }
      let effs := s.parsed_devices.filterMap
        (fun q => if q.2.did = did then some (Effect.setAvail q.2.eid false) else none)
      match onOfflineLoop s1 rest with
      | .error e => .error e
      | .ok (s2, e2) => .ok (s2, effs ++ e2)

/-- The `Disconnected` branch of `terncy_event_handler`: mark every known
device unavailable and, unless stopped, schedule exactly one reconnect. -/
def handleDisconnected (s : GwState) : GwState × List Effect :=
  ({ s with parsed_devices := s.parsed_devices.map (fun q => (q.1, q.2.set_available false)) },
   Effect.logWarning "Disconnected" ::
     (s.parsed_devices.map (fun q => Effect.setAvail q.2.eid false) ++
       (if s.stopped then [] else [Effect.scheduleReconnect])))

/-- `terncy_event_handler`: the event dispatcher. An `EventMessage`
without an `entities` key is logged and dropped; dispatch is by the
declared `type` string, a `None` type is silently ignored, any other
unrecognized value is logged and dropped. -/
def terncy_event_handler (env : Env) (s : GwState) (ev : TEvent) :
    Except String (GwState × List Effect) :=
  match ev with
  | .eventMessage msg =>
    match msg.entities with
    | none => .ok (s, [Effect.logWarning "entities not found in message"])
    | some msg_data =>
      match msg.mtype with
      | some t =>
        if t = "report" then .ok (s, onReportLoop s msg_data)
        else if t = "keyPressed" then (onKeyPressedLoop env s msg_data).map (fun effs => (s, effs))
        else if t = "keyLongPressed" then
          (dualChannelLoop env s ACTION_LONG_PRESS msg_data).map (fun effs => (s, effs))
        else if t = "rotation" then
          (dualChannelLoop env s ACTION_ROTATION msg_data).map (fun effs => (s, effs))
        else if t = "entityAvailable" then onEntityAvailableLoop env s msg_data
        else if t = "entityDeleted" then onEntityDeletedLoop env s msg_data
        else if t = "entityCreated" then onEntityCreatedLoop env s msg_data
        else if t = "entityUpdated" then onEntityUpdatedLoop env s msg_data
        else if t = "offline" then onOfflineLoop s msg_data
        else .ok (s, [Effect.logWarning "unsupported event type"])
      | none => .ok (s, [Effect.logDebug "event type is None, ignore"])
  | .connected => .ok (s, [Effect.logInfo "Connected", Effect.scheduleRefresh])
  | .disconnected => .ok (handleDisconnected s)
  | .unknown => .ok (s, [Effect.logWarning "Unknown Event"])

/-! ## Room-name resolution (`async_refresh_devices`, room section) -/

/-- `room["name"] or default_rooms.get(room["id"], "")`: the hub-supplied
name wins when non-empty, else the locale default table, else the empty
string. -/
def resolveRoomName (defaults : List (String × String)) (rid nm : String) : String :=
  if nm = "" then (alLookup defaults rid).getD "" else nm

/-- The room dict comprehension of `async_refresh_devices`
(`room["id"]` / `room["name"]` are raising reads; the surrounding `try`
catches any failure outside this function). `defaults` is the
locale-selected `DEFAULT_ROOMS` table (`const.py`, external). -/
def buildRoomData (defaults : List (String × String)) :
    List Payload → Except String (List (String × String))
  | [] => .ok []
  | r :: rest =>
    match r.id, r.name with
    | some rid, some nm =>
      (buildRoomData defaults rest).map (fun rd => (rid, resolveRoomName defaults rid nm) :: rd)
    | _, _ => .error "KeyError: room id or name"

/-! ## The reconnect routine as a transition system (`reconnect` / `stop`)

`reconnect()` runs `if self._stopped: return` first, then
`await asyncio.sleep(2)`, then `if self.is_connected: return`, then
`await self.api.start()`.  Its atomic suspension points interleave with a
deliberate `stop()` (which sets the stopped flag and tears the connection
down).  `pc` is the routine's progress: `none` means finished or aborted;
the delay elapses at the `atSleep → atCheckConnected` step. -/

inductive RPc where
  | atCheckStopped
  | atSleep
  | atCheckConnected
  deriving DecidableEq, Repr

inductive RAct where
  | stepReconnect
  | doStop
  deriving DecidableEq, Repr

structure RState where
  stopped : Bool
  connected : Bool
  pc : Option RPc
  connectCalls : Nat
  deriving DecidableEq, Repr

/-- One atomic step of the interleaving: `doStop` is a completed
deliberate `stop()`; `stepReconnect` advances the reconnect routine to
its next suspension point. -/
def rstep (s : RState) : RAct → RState
  | .doStop => { s with stopped := true, connected := false }
  | .stepReconnect =>
    match s.pc with
    | none => s
    | some .atCheckStopped =>
      if s.stopped then { s with pc := none } else { s with pc := some .atSleep }
    | some .atSleep => { s with pc := some .atCheckConnected }
    | some .atCheckConnected =>
      if s.connected then { s with pc := none }
      else { s with pc := none, connectCalls := s.connectCalls + 1 }

/-- Run a whole interleaving. -/
def rrun (s : RState) : List RAct → RState
  | [] => s
  | a :: rest => rrun (rstep s a) rest

/-- A deliberate `stop()` completes somewhere in the trace before the
reconnect routine's fixed delay has elapsed (the routine is still at its
stopped-check or inside the sleep). -/
def stopBeforeDelay (s : RState) : List RAct → Bool
  | [] => false
  | a :: rest =>
    (decide (a = RAct.doStop) &&
      decide (s.pc = some RPc.atCheckStopped ∨ s.pc = some RPc.atSleep)) ||
      stopBeforeDelay (rstep s a) rest

/-- The state right after a Disconnected event scheduled the reconnect
routine while not stopped: disconnected, routine about to run. -/
def rinit : RState :=
  { stopped := false, connected := false, pc := some RPc.atCheckStopped, connectCalls := 0 }

/-! ## Derived notions used by the claim statements -/

/-- Is this effect a host device-registry removal call? -/
def isRemoveDeviceEntry : Effect → Bool
  | .removeDeviceEntry _ => true
  | _ => false

/-- Is this effect a host entity-registry removal call? -/
def isRemoveEntity : Effect → Bool
  | .removeEntity _ => true
  | _ => false

/-- Silent for the dispatcher means: at most debug-level tracing, no
warning, no state-touching or notifying effect. -/
def silentEffects (effs : List Effect) : Bool :=
  effs.all fun e =>
    match e with
    | .logDebug _ => true
    | _ => false

/-- The per-key semantic action of one `setup_device` service iteration at
the eid the service names: update in place if a record exists, else
create one exactly when the profile is known and at least one
description survives the required-attribute filter. -/
def svcStep (env : Env) (did : String) (online : Bool) (svc : SvcData)
    (o : Option TerncyDevice) : Option TerncyDevice :=
  let attributes := svc.attributes.getD []
  match o with
  | some device => some ((device.set_available online).update_state attributes)
  | none =>
    match svc.id with
    | none => none
    | some eid =>
      match svc.profile.bind env.profiles with
      | none => none
      | some descs =>
        let attrs := attributes.filterMap (fun a => a.attr)
        let descriptions := descs.filter
          (fun d => d.required_attrs.isEmpty || d.required_attrs.all (fun r => attrs.contains r))
        if descriptions.isEmpty then none
        else
          let dev0 : TerncyDevice :=
            ⟨did, eid, svc.profile, true, descriptions.map (fun d => create_entity eid d attributes)⟩
          some ((dev0.set_available online).update_state attributes)

/-- The composed per-key action of a whole service list at key `k`:
each service touches exactly the eid it names. -/
def svcFold (env : Env) (did : String) (online : Bool) :
    List SvcData → String → Option TerncyDevice → Option TerncyDevice
  | [], _, o => o
  | svc :: rest, k, o =>
    svcFold env did online rest k (if svc.id = some k then svcStep env did online svc o else o)

/-- The per-key action of one `entityAvailable` device payload. -/
def availKeyFun (env : Env) (p : Payload) (k : String)
    (o : Option TerncyDevice) : Option TerncyDevice :=
  svcFold env (p.id.getD "") (p.online.getD true) (p.services.getD []) k o

/-- Processing the same `entityAvailable` event `n` times in sequence. -/
def iterAvail (env : Env) (p : Payload) : Nat → GwState → Except String GwState
  | 0, s => .ok s
  | n + 1, s =>
    match onEntityAvailableLoop env s [p] with
    | .error e => .error e
    | .ok (s1, _) => iterAvail env p n s1

/-- Wellformedness of one service dict: the fields the loop reads with a
raising `["…"]` access are present. -/
@[reducible] def svcWF (svc : SvcData) : Prop :=
  svc.id.isSome = true ∧ svc.name.isSome = true ∧
    ∀ a ∈ svc.attributes.getD [], a.attr.isSome = true

/-- Wellformedness of an `entityAvailable` device payload. -/
@[reducible] def availWF (p : Payload) : Prop :=
  p.ptype = some "device" ∧ p.id.isSome = true ∧ ∀ svc ∈ p.services.getD [], svcWF svc

/-- Wellformedness of a device record: every attached presentation
object's state is a dict (no duplicate keys). -/
@[reducible] def devWF (d : TerncyDevice) : Prop :=
  ∀ en ∈ d.entities, (alKeys en.state).Nodup

/-- `devWF` lifted to an optional record. -/
@[reducible] def optDevWF (o : Option TerncyDevice) : Prop :=
  ∀ d, o = some d → devWF d

/-- Wellformedness of the gateway state for claim C3. -/
@[reducible] def stateWF (s : GwState) : Prop :=
  ∀ q ∈ s.parsed_devices, devWF q.2

/-- Claim C1's temporal half as stated: a deliberate `stop()` completing
before the reconnect delay elapses always prevents the connect call. -/
def claimC1ReconnectProp : Prop :=
  ∀ acts : List RAct, stopBeforeDelay rinit acts = true → (rrun rinit acts).connectCalls = 0

/-- Claim C4 as stated: an `EventMessage` whose declared type is empty
*or* unset is silently ignored (no state mutation, nothing beyond debug
tracing). -/
def claimC4Prop : Prop :=
  ∀ (env : Env) (s : GwState) (pl : List Payload) (t : Option String),
    t = none ∨ t = some "" →
    ∃ effs, terncy_event_handler env s (TEvent.eventMessage ⟨some pl, t⟩) = .ok (s, effs) ∧
      silentEffects effs = true

/-! ## Concrete sample data for the witnesses -/

/-- A sample environment: profile `1` maps to a single switch description
requiring the `on` attribute; eid `e1` has a host registry entry. -/
def env0 : Env where
  profiles := fun p => if p = 1 then some [⟨"switch", ["on"]⟩] else none
  registry := fun eid => if eid = "e1" then some "entry-e1" else none

/-- A fresh gateway state. -/
def gw0 : GwState := {}

/-- A sample device record owned by device id `d1`. -/
def dev1 : TerncyDevice :=
  { did := "d1", eid := "e1", profile := some 1, available := true,
    entities := [{ eid := "e1", key := "switch", state := [("on", AVal.bool true)] }] }

/-- A sample scene presentation entity. -/
def sceneEnt1 : TerncyEntity :=
  { eid := "scene-1", key := "scene", name := "Evening", available := true, state := [] }

/-- A populated gateway state: one device, one scene, one listener,
scene export on. -/
def gw1 : GwState :=
  { stopped := false,
    parsed_devices := [("e1", dev1)],
    listeners := [("e1", [7])],
    scenes := [("scene-1", sceneEnt1)],
    export_scenes := true,
    uniqueId := "box-1" }

/-- A sample `entityAvailable` device payload for device `d1` with one
service `e1` of profile `1` reporting the `on` attribute. -/
def payloadAvail1 : Payload :=
  { id := some "d1", ptype := some "device", online := some true,
    services := some [{ id := some "e1", name := some "sw",
                        profile := some 1,
                        attributes := some [{ attr := some "on", value := some (AVal.bool true) }] }] }

/-! ## Dict and merge lemmas -/

@[simp] theorem alLookup_nil {β : Type} (a : String) : alLookup ([] : List (String × β)) a = none := rfl

theorem alLookup_alSet_self {β : Type} (m : List (String × β)) (a : String) (v : β) :
    alLookup (alSet m a v) a = some v := by
  induction m with
  | nil => simp [alSet, alLookup]
  | cons p rest ih =>
    obtain ⟨b, w⟩ := p
    by_cases hb : b = a
    · simp [alSet, hb, alLookup]
    · simp [alSet, hb, alLookup, ih]

theorem alLookup_alSet_ne {β : Type} (m : List (String × β)) (a k : String) (v : β)
    (h : k ≠ a) : alLookup (alSet m a v) k = alLookup m k := by
  induction m with
  | nil => simp [alSet, alLookup, Ne.symm h]
  | cons p rest ih =>
    obtain ⟨b, w⟩ := p
    by_cases hb : b = a
    · subst hb
      simp [alSet, alLookup, Ne.symm h]
    · by_cases hk : b = k
      · subst hk
        simp [alSet, hb, alLookup]
      · simp [alSet, hb, alLookup, hk, ih]

theorem alKeys_alSet_of_mem {β : Type} (m : List (String × β)) (a : String) (v : β)
    (h : a ∈ alKeys m) : alKeys (alSet m a v) = alKeys m := by
  induction m with
  | nil => simp [alKeys] at h
  | cons p rest ih =>
    obtain ⟨b, w⟩ := p
    by_cases hb : b = a
    · simp [alSet, hb, alKeys]
    · have hm : a ∈ alKeys rest := by
        simp [alKeys] at h
        rcases h with h | h
        · exact absurd h.symm hb
        · simpa [alKeys] using h
      simp [alSet, hb, alKeys, ih hm]
      simpa [alKeys] using ih hm

theorem alKeys_alSet_of_not_mem {β : Type} (m : List (String × β)) (a : String) (v : β)
    (h : ¬ a ∈ alKeys m) : alKeys (alSet m a v) = alKeys m ++ [a] := by
  induction m with
  | nil => simp [alSet, alKeys]
  | cons p rest ih =>
    obtain ⟨b, w⟩ := p
    by_cases hb : b = a
    · exfalso
      exact h (by simp [alKeys, hb])
    · have hm : ¬ a ∈ alKeys rest := fun hc => h (by simp [alKeys] at hc ⊢; exact Or.inr hc)
      simp [alSet, hb, alKeys]
      simpa [alKeys] using ih hm

theorem mem_alKeys_alSet {β : Type} (m : List (String × β)) (a : String) (v : β) :
    a ∈ alKeys (alSet m a v) := by
  by_cases h : a ∈ alKeys m
  · rw [alKeys_alSet_of_mem m a v h]; exact h
  · rw [alKeys_alSet_of_not_mem m a v h]; simp

theorem mem_alKeys_alSet_of_mem {β : Type} (m : List (String × β)) (a k : String) (v : β)
    (h : k ∈ alKeys m) : k ∈ alKeys (alSet m a v) := by
  by_cases ha : a ∈ alKeys m
  · rw [alKeys_alSet_of_mem m a v ha]; exact h
  · rw [alKeys_alSet_of_not_mem m a v ha]; exact List.mem_append_left _ h

theorem nodup_alKeys_alSet {β : Type} (m : List (String × β)) (a : String) (v : β)
    (h : (alKeys m).Nodup) : (alKeys (alSet m a v)).Nodup := by
  by_cases ha : a ∈ alKeys m
  · rw [alKeys_alSet_of_mem m a v ha]; exact h
  · rw [alKeys_alSet_of_not_mem m a v ha]
    simpa [List.nodup_append] using ⟨h, ha⟩

theorem alLookup_of_mem_nodup {β : Type} (m : List (String × β)) (k : String) (v : β)
    (hmem : (k, v) ∈ m) (hnd : (alKeys m).Nodup) : alLookup m k = some v := by
  induction m with
  | nil => simp at hmem
  | cons p rest ih =>
    obtain ⟨b, w⟩ := p
    simp [alKeys] at hnd
    rcases List.mem_cons.mp hmem with h | h
    · have hk : k = b := congrArg Prod.fst h
      have hv : v = w := congrArg Prod.snd h
      subst hk
      subst hv
      simp [alLookup]
    · have hbk : b ≠ k := by
        intro hbk
        subst hbk
        exact hnd.1 v h
      simp [alLookup, hbk, ih h hnd.2]

theorem mem_alKeys_mergeAttrs_of_mem (ps : List (String × AVal)) :
    ∀ (st : AttrState) (k : String), k ∈ alKeys st → k ∈ alKeys (mergeAttrs st ps) := by
  induction ps with
  | nil => intro st k h; simpa [mergeAttrs] using h
  | cons p ps ih =>
    obtain ⟨a, v⟩ := p
    intro st k h
    exact ih (alSet st a v) k (mem_alKeys_alSet_of_mem st a k v h)

theorem mem_alKeys_mergeAttrs_of_write (ps : List (String × AVal)) :
    ∀ (st : AttrState) (p : String × AVal), p ∈ ps → p.1 ∈ alKeys (mergeAttrs st ps) := by
  induction ps with
  | nil => intro st p h; simp at h
  | cons q ps ih =>
    obtain ⟨a, v⟩ := q
    intro st p hp
    rcases List.mem_cons.mp hp with h | h
    · subst h
      exact mem_alKeys_mergeAttrs_of_mem ps (alSet st a v) a (mem_alKeys_alSet st a v)
    · exact ih (alSet st a v) p h

theorem nodup_alKeys_mergeAttrs (ps : List (String × AVal)) :
    ∀ st : AttrState, (alKeys st).Nodup → (alKeys (mergeAttrs st ps)).Nodup := by
  induction ps with
  | nil => intro st h; simpa [mergeAttrs] using h
  | cons p ps ih =>
    obtain ⟨a, v⟩ := p
    intro st h
    exact ih (alSet st a v) (nodup_alKeys_alSet st a v h)

theorem alLookup_mergeAttrs (ps : List (String × AVal)) :
    ∀ (st : AttrState) (k : String),
      alLookup (mergeAttrs st ps) k =
        match lastWrite ps k with
        | some v => some v
        | none => alLookup st k := by
  induction ps with
  | nil => intro st k; simp [mergeAttrs, lastWrite]
  | cons p ps ih =>
    obtain ⟨a, v⟩ := p
    intro st k
    rw [mergeAttrs, ih (alSet st a v) k]
    by_cases hk : k = a
    · subst hk
      cases hlw : lastWrite ps k <;>
        simp [lastWrite, hlw, alLookup_alSet_self]
    · cases hlw : lastWrite ps k <;>
        simp [lastWrite, hlw, alLookup_alSet_ne st a k v hk, Ne.symm hk]

theorem map_if_key_not_mem {β : Type} (a : String) (c : String × β) :
    ∀ l : List (String × β), ¬ a ∈ alKeys l →
      l.map (fun p => if p.1 = a then c else p) = l := by
  intro l
  induction l with
  | nil => intro _; simp
  | cons q rest ih =>
    intro h
    have hq : q.1 ≠ a := fun hc => h (by simp [alKeys, hc])
    have hr : ¬ a ∈ alKeys rest := fun hc => h (by simp [alKeys] at hc ⊢; exact Or.inr hc)
    simp [hq, ih hr]

theorem alSet_eq_map_of_mem {β : Type} (st : List (String × β)) (a : String) (v : β)
    (hmem : a ∈ alKeys st) (hnd : (alKeys st).Nodup) :
    alSet st a v = st.map (fun p => if p.1 = a then (a, v) else p) := by
  induction st with
  | nil => simp [alKeys] at hmem
  | cons q rest ih =>
    obtain ⟨b, w⟩ := q
    simp [alKeys] at hnd
    by_cases hb : b = a
    · subst hb
      have hrest : ¬ b ∈ alKeys rest := by
        intro hc
        simp [alKeys] at hc
        obtain ⟨x, hx⟩ := hc
        exact hnd.1 x hx
      simp [alSet, map_if_key_not_mem b (b, v) rest hrest]
    · have hmem2 : a ∈ alKeys rest := by
        simp [alKeys] at hmem
        rcases hmem with h | h
        · exact absurd h.symm hb
        · simpa [alKeys] using h
      simp [alSet, hb, ih hmem2 hnd.2]

theorem mergeAttrs_fixed (qs : List (String × AVal)) :
    ∀ st : AttrState, (alKeys st).Nodup → (∀ p ∈ qs, p.1 ∈ alKeys st) →
      mergeAttrs st qs = st.map (fun p => (p.1, (lastWrite qs p.1).getD p.2)) := by
  induction qs with
  | nil =>
    intro st _ _
    simp [mergeAttrs, lastWrite]
  | cons q qs ih =>
    obtain ⟨a, w⟩ := q
    intro st hnd hkeys
    have ha : a ∈ alKeys st := hkeys (a, w) (List.mem_cons_self _ _)
    have hkeys2 : ∀ p ∈ qs, p.1 ∈ alKeys (alSet st a w) := by
      intro p hp
      have := hkeys p (List.mem_cons_of_mem _ hp)
      exact mem_alKeys_alSet_of_mem st a p.1 w this
    have hnd2 : (alKeys (alSet st a w)).Nodup := nodup_alKeys_alSet st a w hnd
    rw [mergeAttrs, ih (alSet st a w) hnd2 hkeys2,
      alSet_eq_map_of_mem st a w ha hnd, List.map_map]
    apply List.map_congr_left
    intro p _
    by_cases hp : p.1 = a
    · simp only [Function.comp, hp, if_pos]
      cases hlw : lastWrite qs a <;> simp [lastWrite, hlw, hp]
    · simp only [Function.comp, hp, if_neg, ite_false]
      cases hlw : lastWrite qs p.1 <;> simp [lastWrite, hlw, hp, Ne.symm hp]

/-- Re-merging the same pair list is a no-op: the second pass only replaces
values in place with the values they already have. -/
theorem mergeAttrs_idem (st : AttrState) (ps : List (String × AVal))
    (hnd : (alKeys st).Nodup) :
    mergeAttrs (mergeAttrs st ps) ps = mergeAttrs st ps := by
  have hnd2 : (alKeys (mergeAttrs st ps)).Nodup := nodup_alKeys_mergeAttrs ps st hnd
  have hkeys : ∀ p ∈ ps, p.1 ∈ alKeys (mergeAttrs st ps) :=
    fun p hp => mem_alKeys_mergeAttrs_of_write ps st p hp
  rw [mergeAttrs_fixed ps (mergeAttrs st ps) hnd2 hkeys]
  conv_rhs => rw [← List.map_id (mergeAttrs st ps)]
  apply List.map_congr_left
  intro p hp
  by_cases hw : (lastWrite ps p.1).isSome
  · obtain ⟨v, hv⟩ := Option.isSome_iff_exists.mp hw
    have hlook : alLookup (mergeAttrs st ps) p.1 = some v := by
      rw [alLookup_mergeAttrs ps st p.1, hv]
    have hlook2 : alLookup (mergeAttrs st ps) p.1 = some p.2 :=
      alLookup_of_mem_nodup _ p.1 p.2 hp hnd2
    have : v = p.2 := by
      rw [hlook] at hlook2
      exact Option.some.inj hlook2
    simp [hv, this]
  · have : lastWrite ps p.1 = none := Option.not_isSome_iff_eq_none.mp hw
    simp [this]

theorem alLookup_alRemove {β : Type} (m : List (String × β)) (a k : String) :
    alLookup (alRemove m a) k = if k = a then none else alLookup m k := by
  induction m with
  | nil => simp [alRemove, alLookup]
  | cons p rest ih =>
    obtain ⟨b, w⟩ := p
    by_cases hb : b = a
    · subst hb
      by_cases hk : k = b
      · subst hk
        simp [alRemove, alLookup] at ih ⊢
        simpa using ih
      · simp [alRemove, alLookup, hk] at ih ⊢
        simpa [Ne.symm hk] using ih
    · by_cases hk : b = k
      · subst hk
        simp [alRemove, alLookup, hb, Ne.symm hb]
      · simp [alRemove, alLookup, hb, hk] at ih ⊢
        exact ih

theorem mem_of_alLookup {β : Type} (m : List (String × β)) (k : String) (v : β)
    (h : alLookup m k = some v) : (k, v) ∈ m := by
  induction m with
  | nil => simp [alLookup] at h
  | cons p rest ih =>
    obtain ⟨b, w⟩ := p
    by_cases hb : b = k
    · subst hb
      simp [alLookup] at h
      simp [h]
    · simp [alLookup, hb] at h
      exact List.mem_cons_of_mem _ (ih h)

/-! ## Claim C4 — dispatcher treatment of empty/unset event types -/

/-- C4 (amended): an `EventMessage` with an *unset* type is silently
ignored (state unchanged, only a debug line); any unrecognized type
string — including the *empty* string, which the claim wrongly groups
with the silent case — is logged at warning level and dropped with no
state mutation and no notification. -/
theorem C4_unrecognized_type_dropped :
    (∀ (env : Env) (s : GwState) (pl : List Payload),
      terncy_event_handler env s (TEvent.eventMessage ⟨some pl, none⟩) =
        .ok (s, [Effect.logDebug "event type is None, ignore"])) ∧
    (∀ (env : Env) (s : GwState) (pl : List Payload) (t : String),
      t ∉ ["report", "keyPressed", "keyLongPressed", "rotation", "entityAvailable",
           "entityDeleted", "entityCreated", "entityUpdated", "offline"] →
      terncy_event_handler env s (TEvent.eventMessage ⟨some pl, some t⟩) =
        .ok (s, [Effect.logWarning "unsupported event type"])) := by
  constructor
  · intro env s pl
    rfl
  · intro env s pl t ht
    simp only [List.mem_cons, List.not_mem_nil, or_false, not_or] at ht
    obtain ⟨h1, h2, h3, h4, h5, h6, h7, h8, h9⟩ := ht
    simp [terncy_event_handler, h1, h2, h3, h4, h5, h6, h7, h8, h9]

/-- C4 witness: the empty-string type at a concrete state. -/
theorem C4_unrecognized_type_dropped_witness :
    terncy_event_handler env0 gw0 (TEvent.eventMessage ⟨some [], some ""⟩) =
      .ok (gw0, [Effect.logWarning "unsupported event type"]) :=
  C4_unrecognized_type_dropped.2 env0 gw0 [] "" (by decide)

/-- C4 counterexample: with declared type `""` the dispatcher emits a
warning, not a silent no-op, so the claim as stated is false. -/
theorem C4_counterexample : ¬ claimC4Prop := by
  intro h
  obtain ⟨effs, heq, hsil⟩ := h env0 gw0 [] (some "") (Or.inr rfl)
  have h3 : effs = [Effect.logWarning "unsupported event type"] := by
    have h4 : (Except.ok (gw0, [Effect.logWarning "unsupported event type"]) :
        Except String (GwState × List Effect)) = .ok (gw0, effs) := by
      rw [← heq]
      rfl
    simpa using h4.symm
  subst h3
  simp [silentEffects] at hsil

/-! ## Claim C5 — write-through-then-notify of the command facade -/

/-- C5: `set_attribute`/`set_attributes` send the write through the
SessionClient first; a transport error propagates unchanged and no
listener is notified; on success the written pairs go to every listener
registered for the eid. -/
theorem C5_optimistic_write :
    (∀ (s : GwState) (err eid attr : String) (v : AVal) (m : Int),
      set_attribute s (.error err) eid attr v m = .error err) ∧
    (∀ (s : GwState) (eid attr : String) (v : AVal) (m : Int),
      set_attribute s (.ok ()) eid attr v m =
        .ok (Effect.apiWrite eid [{ attr := some attr, value := some v }] m ::
          updateListeners s eid [{ attr := some attr, value := some v }])) ∧
    (∀ (s : GwState) (eid : String) (data : List AttrObj) (ls : List Nat) (l : Nat),
      alLookup s.listeners eid = some ls → l ∈ ls →
      Effect.notify l eid data ∈ updateListeners s eid data) ∧
    (∀ (s : GwState) (err eid : String) (attrs : List AttrObj) (m : Int),
      set_attributes s (.error err) eid attrs m = .error err) ∧
    (∀ (s : GwState) (eid : String) (attrs : List AttrObj) (m : Int),
      set_attributes s (.ok ()) eid attrs m =
        .ok (Effect.apiWrite eid attrs m :: updateListeners s eid attrs)) := by
  refine ⟨fun s err eid attr v m => rfl, fun s eid attr v m => rfl, ?_,
    fun s err eid attrs m => rfl, fun s eid attrs m => rfl⟩
  intro s eid data ls l hls hl
  simp only [updateListeners, hls]
  exact List.mem_map_of_mem _ hl

/-- C5 witness: the registered listener of `gw1` receives the pushed data. -/
theorem C5_optimistic_write_witness :
    Effect.notify 7 "e1" [] ∈ updateListeners gw1 "e1" [] :=
  C5_optimistic_write.2.2.1 gw1 "e1" [] [7] 7 (by decide) (by decide)

/-! ## Claim C8 — out-of-range press counts fall back -/

/-- C8: the press-count label lookup only indexes the
`EVENT_ENTITY_BUTTON_EVENTS` table when `1 ≤ times ≤ 9`; outside the
range it returns the generic single-press label, and it never fails for
any count. -/
theorem C8_out_of_range_single_press :
    (∀ t : Int, ¬ (1 ≤ t ∧ t ≤ 9) → resolveKeyLabel t = .ok ACTION_SINGLE_PRESS) ∧
    (∀ t : Int, ∃ l, resolveKeyLabel t = .ok l) := by
  constructor
  · intro t ht
    simp [resolveKeyLabel, ht]
  · intro t
    by_cases ht : 1 ≤ t ∧ t ≤ 9
    · obtain ⟨h1, h2⟩ := ht
      interval_cases t <;> exact ⟨_, rfl⟩
    · exact ⟨ACTION_SINGLE_PRESS, by simp [resolveKeyLabel, ht]⟩

/-- C8 witness: `times = 0` and `times = 15`. -/
theorem C8_out_of_range_single_press_witness :
    resolveKeyLabel 0 = .ok ACTION_SINGLE_PRESS ∧
      resolveKeyLabel 15 = .ok ACTION_SINGLE_PRESS :=
  ⟨C8_out_of_range_single_press.1 0 (by decide),
   C8_out_of_range_single_press.1 15 (by decide)⟩

/-! ## Claim C10 — keyPressed payloads without attributes are skipped -/

/-- C10: a `keyPressed` payload lacking the `attributes` key contributes
nothing — no trigger, no bus event, no error — and processing
continues with the remaining payloads of the same message. -/
theorem C10_missing_attributes_skipped :
    ∀ (env : Env) (s : GwState) (p : Payload) (rest : List Payload),
      p.attributes = none →
      onKeyPressedLoop env s (p :: rest) = onKeyPressedLoop env s rest := by
  intro env s p rest h
  simp only [onKeyPressedLoop, onKeyPressedItem, h]
  cases hres : onKeyPressedLoop env s rest <;> simp

/-- C10 witness: a concrete attribute-less payload. -/
theorem C10_missing_attributes_skipped_witness :
    onKeyPressedLoop env0 gw1 [{ id := some "e1" }] = onKeyPressedLoop env0 gw1 [] :=
  C10_missing_attributes_skipped env0 gw1 { id := some "e1" } [] rfl

/-! ## Claim C9 — room-name resolution -/

/-- C9: for each fetched room, an empty hub-supplied name falls back to
the locale default table's entry for the id; an id also absent from the
default table resolves to the empty string; and on wellformed room
payloads the whole comprehension succeeds with exactly the resolved
pairs. -/
theorem C9_room_resolution :
    (∀ (defaults : List (String × String)) (rid d : String),
      alLookup defaults rid = some d → resolveRoomName defaults rid "" = d) ∧
    (∀ (defaults : List (String × String)) (rid : String),
      alLookup defaults rid = none → resolveRoomName defaults rid "" = "") ∧
    (∀ (defaults : List (String × String)) (rooms : List Payload),
      (∀ r ∈ rooms, r.id.isSome = true ∧ r.name.isSome = true) →
      buildRoomData defaults rooms =
        .ok (rooms.map (fun r =>
          (r.id.getD "", resolveRoomName defaults (r.id.getD "") (r.name.getD ""))))) := by
  refine ⟨?_, ?_, ?_⟩
  · intro defaults rid d h
    simp [resolveRoomName, h]
  · intro defaults rid h
    simp [resolveRoomName, h]
  · intro defaults rooms
    induction rooms with
    | nil => intro _; rfl
    | cons r rest ih =>
      intro h
      obtain ⟨hid, hnm⟩ := h r (List.mem_cons_self _ _)
      obtain ⟨rid, hrid⟩ := Option.isSome_iff_exists.mp hid
      obtain ⟨nm, hnm2⟩ := Option.isSome_iff_exists.mp hnm
      have hrest := ih (fun q hq => h q (List.mem_cons_of_mem _ hq))
      simp [buildRoomData, hrid, hnm2, hrest, Except.map]

/-- C9 witness: a room with empty hub name and a default entry, a room
id with no default, and a concrete successful comprehension. -/
theorem C9_room_resolution_witness :
    resolveRoomName [("r1", "Hall")] "r1" "" = "Hall" ∧
    resolveRoomName [("r1", "Hall")] "r2" "" = "" ∧
    buildRoomData [("r1", "Hall")] [{ id := some "r1", name := some "" }] =
      .ok [("r1", "Hall")] :=
  ⟨C9_room_resolution.1 [("r1", "Hall")] "r1" "Hall" (by decide),
   C9_room_resolution.2.1 [("r1", "Hall")] "r2" (by decide),
   (C9_room_resolution.2.2 [("r1", "Hall")] [{ id := some "r1", name := some "" }]
     (by decide)).trans (by rfl)⟩

/-! ## Claim C7 — dual-channel keyPressed notification at times = 3 -/

/-- C7: a `keyPressed` payload with `times = 3` produces exactly one
local device trigger labeled for three presses when a local Device for
the eid exists, and exactly one host bus event carrying `times: 3` when
a host registry entry exists; each channel fires independently of the
other and a missing target is not an error. -/
theorem C7_key_pressed_three :
    ∀ (env : Env) (s : GwState) (eid : String),
      onKeyPressedItem env s { id := some eid, attributes := some [{ times := some 3 }] } =
        .ok ((match alLookup s.parsed_devices eid with
              | some _ => [Effect.triggerEvent eid "triple_press" (some 3)]
              | none => []) ++
             (match env.registry eid with
              | some entryId => [Effect.busFire "terncy_pressed" entryId eid (some 3)]
              | none => [])) := by
  intro env s eid
  rfl

/-! ## Claim C6 — Scene Setup with an empty action list -/

/-- C6: with scene export enabled and an empty `actions` list, Scene
Setup on an unknown scene id has no observable effect, while on a known
id it soft-disables the stored scene, leaving its display name
untouched. -/
theorem C6_scene_empty_actions :
    ∀ (s : GwState) (p : Payload) (sid : String),
      s.export_scenes = true → p.id = some sid → p.actions.getD [] = [] →
      (alLookup s.scenes sid = none → setup_scene s p = .ok (s, [])) ∧
      (∀ e, alLookup s.scenes sid = some e →
        setup_scene s p =
          .ok ({ s with scenes := alSet s.scenes sid (e.set_available false) },
               [Effect.setAvail e.eid false]) ∧
        (e.set_available false).name = e.name ∧
        (e.set_available false).available = false) := by
  intro s p sid hexp hid hact
  constructor
  · intro hnone
    simp [setup_scene, hexp, hid, hact, hnone]
  · intro e he
    refine ⟨?_, rfl, rfl⟩
    simp [setup_scene, hexp, hid, hact, he]

/-- C6 witness: an unknown and a known scene id at a concrete state. -/
theorem C6_scene_empty_actions_witness :
    setup_scene gw1 { id := some "scene-9", actions := some [] } = .ok (gw1, []) ∧
    setup_scene gw1 { id := some "scene-1" } =
      .ok ({ gw1 with scenes := alSet gw1.scenes "scene-1" (sceneEnt1.set_available false) },
           [Effect.setAvail sceneEnt1.eid false]) :=
  ⟨(C6_scene_empty_actions gw1 { id := some "scene-9", actions := some [] } "scene-9"
      rfl rfl rfl).1 (by decide),
   ((C6_scene_empty_actions gw1 { id := some "scene-1" } "scene-1"
      rfl rfl rfl).2 sceneEnt1 (by decide)).1⟩

/-! ## Claim C1 — Disconnected handling and the reconnect/stop race -/

theorem rrun_stopped_safe :
    ∀ (acts : List RAct) (s : RState), s.stopped = true →
      (s.pc = some RPc.atCheckStopped ∨ s.pc = none) → s.connectCalls = 0 →
      (rrun s acts).connectCalls = 0 := by
  intro acts
  induction acts with
  | nil =>
    intro s _ _ h3
    simpa [rrun] using h3
  | cons a rest ih =>
    intro s h1 h2 h3
    rw [rrun]
    cases a with
    | doStop =>
      exact ih _ (by simp [rstep]) (by simpa [rstep] using h2) (by simpa [rstep] using h3)
    | stepReconnect =>
      rcases h2 with h2 | h2
      · have hs : rstep s RAct.stepReconnect = { s with pc := none } := by
          simp [rstep, h2, h1]
        rw [hs]
        exact ih _ (by simpa using h1) (Or.inr rfl) (by simpa using h3)
      · have hs : rstep s RAct.stepReconnect = s := by
          simp [rstep, h2]
        rw [hs]
        exact ih _ h1 (Or.inr h2) h3

/-- C1 (amended): a `Disconnected` event while not stopped marks every
device in the Devices map unavailable and schedules exactly one
reconnect; a deliberate `stop()` that completes before the reconnect
routine performs its initial stopped-flag check prevents the connect
call.  (A stop completing after that check but before the fixed delay
elapses does not prevent it — see the counterexample.) -/
theorem C1_disconnect_and_stop :
    (∀ s : GwState,
      s.stopped = false →
      (∀ q ∈ (handleDisconnected s).1.parsed_devices, q.2.available = false) ∧
      ((handleDisconnected s).2.count Effect.scheduleReconnect = 1)) ∧
    (∀ (s : RState) (rest : List RAct),
      s.pc = some RPc.atCheckStopped → s.connectCalls = 0 →
      (rrun s (RAct.doStop :: rest)).connectCalls = 0) := by
  constructor
  · intro s hstop
    constructor
    · intro q hq
      simp only [handleDisconnected, List.mem_map] at hq
      obtain ⟨x, _, hx⟩ := hq
      rw [← hx]
      rfl
    · have hmap : (s.parsed_devices.map (fun q => Effect.setAvail q.2.eid false)).count
          Effect.scheduleReconnect = 0 := by
        rw [List.count_eq_zero]
        intro hmem
        obtain ⟨x, _, hx⟩ := List.mem_map.mp hmem
        exact Effect.noConfusion hx
      simp [handleDisconnected, hstop, List.count_cons, List.count_append, hmap]
  · intro s rest hpc hcc
    rw [rrun]
    apply rrun_stopped_safe
    · simp [rstep]
    · left
      simpa [rstep] using hpc
    · simpa [rstep] using hcc

/-- C1 witness: the populated state's disconnect schedules one reconnect;
a stop that lands before the routine starts suppresses the connect. -/
theorem C1_disconnect_and_stop_witness :
    ((handleDisconnected gw1).2.count Effect.scheduleReconnect = 1) ∧
    ((rrun { stopped := false, connected := false, pc := some RPc.atCheckStopped,
             connectCalls := 0 }
        [RAct.doStop, RAct.stepReconnect, RAct.stepReconnect]).connectCalls = 0) :=
  ⟨(C1_disconnect_and_stop.1 gw1 rfl).2,
   C1_disconnect_and_stop.2
     { stopped := false, connected := false, pc := some RPc.atCheckStopped, connectCalls := 0 }
     [RAct.stepReconnect, RAct.stepReconnect] rfl rfl⟩

/-- C1 counterexample: in the trace where the routine passes its stopped
check, then `stop()` completes during the sleep (before the delay
elapses), the routine still issues the connect call, refuting the claim
as stated. -/
theorem C1_counterexample : ¬ claimC1ReconnectProp := by
  intro h
  have h1 := h [RAct.stepReconnect, RAct.doStop, RAct.stepReconnect, RAct.stepReconnect]
    (by decide)
  exact absurd h1 (by decide)

/-! ## Claim C2 — entityDeleted -/

theorem deleteDevices_lookup (env : Env) :
    ∀ (ws : List (String × TerncyDevice)) (s : GwState) (k : String),
      alLookup (deleteDevices env s ws).1.parsed_devices k =
        if k ∈ ws.map Prod.fst then none else alLookup s.parsed_devices k := by
  intro ws
  induction ws with
  | nil => intro s k; simp [deleteDevices]
  | cons q rest ih =>
    obtain ⟨eid, d⟩ := q
    intro s k
    rw [deleteDevices]
    rw [ih _ k]
    by_cases hr : k ∈ rest.map Prod.fst
    · simp [hr]
    · rw [if_neg hr]
      by_cases hk : k = eid
      · subst hk
        simp [alLookup_alRemove]
      · simp [alLookup_alRemove, hk, hr]

theorem deleteDevices_scenes (env : Env) :
    ∀ (ws : List (String × TerncyDevice)) (s : GwState),
      (deleteDevices env s ws).1.scenes = s.scenes := by
  intro ws
  induction ws with
  | nil => intro s; rfl
  | cons q rest ih =>
    obtain ⟨eid, d⟩ := q
    intro s
    rw [deleteDevices]
    exact ih _

theorem deleteDevices_setAvail_mem (env : Env) :
    ∀ (ws : List (String × TerncyDevice)) (s : GwState) (q : String × TerncyDevice),
      q ∈ ws → Effect.setAvail q.2.eid false ∈ (deleteDevices env s ws).2 := by
  intro ws
  induction ws with
  | nil => intro s q h; simp at h
  | cons w rest ih =>
    obtain ⟨eid, d⟩ := w
    intro s q hq
    rw [deleteDevices]
    rcases List.mem_cons.mp hq with h | h
    · subst h
      exact List.mem_append_left _ (List.mem_cons_self _ _)
    · exact List.mem_append_right _ (ih _ q h)

theorem deleteDevices_count_removals (env : Env) :
    ∀ (ws : List (String × TerncyDevice)) (s : GwState),
      (∀ q ∈ ws, (env.registry q.1).isSome = true) →
      (deleteDevices env s ws).2.countP isRemoveDeviceEntry = ws.length := by
  intro ws
  induction ws with
  | nil => intro s _; rfl
  | cons w rest ih =>
    obtain ⟨eid, d⟩ := w
    intro s h
    have hreg := h (eid, d) (List.mem_cons_self _ _)
    obtain ⟨entry, hentry⟩ := Option.isSome_iff_exists.mp hreg
    rw [deleteDevices]
    simp only [List.countP_append, List.length_cons]
    rw [ih _ (fun q hq => h q (List.mem_cons_of_mem _ hq))]
    simp [hentry, List.countP_cons, isRemoveDeviceEntry]
    omega

theorem deleteDevices_no_entity_removals (env : Env) :
    ∀ (ws : List (String × TerncyDevice)) (s : GwState),
      (deleteDevices env s ws).2.countP isRemoveEntity = 0 := by
  intro ws
  induction ws with
  | nil => intro s; rfl
  | cons w rest ih =>
    obtain ⟨eid, d⟩ := w
    intro s
    rw [deleteDevices]
    simp only [List.countP_append]
    rw [ih _]
    cases henv : env.registry eid <;>
      simp [henv, List.countP_cons, isRemoveEntity]

theorem mem_filter_keys_iff (m : List (String × TerncyDevice)) (did k : String)
    (hnd : (alKeys m).Nodup) :
    k ∈ (m.filter (fun q => q.2.did = did)).map Prod.fst ↔
      ∃ d, alLookup m k = some d ∧ d.did = did := by
  constructor
  · intro h
    obtain ⟨q, hq, hqk⟩ := List.mem_map.mp h
    obtain ⟨hqm, hqd⟩ := List.mem_filter.mp hq
    refine ⟨q.2, ?_, by simpa using hqd⟩
    rw [← hqk]
    exact alLookup_of_mem_nodup m q.1 q.2 hqm hnd
  · intro ⟨d, hd, hdid⟩
    have hmem : (k, d) ∈ m := mem_of_alLookup m k d hd
    have : (k, d) ∈ m.filter (fun q => q.2.did = did) :=
      List.mem_filter.mpr ⟨hmem, by simpa using hdid⟩
    exact List.mem_map.mpr ⟨(k, d), this, rfl⟩

/-- C2: for an `entityDeleted` id with the scene prefix and a known
scene, the scene leaves the Scenes map and exactly one host
entity-registry removal is issued; for a plain device id every Entity
owned by it is marked unavailable and dropped from the Devices map, and
one host device-registry removal is issued per removed entity (given
the registry holds an entry for each, as creation guarantees). -/
theorem C2_entity_deleted :
    ∀ (env : Env) (s : GwState) (p : Payload) (did : String),
      p.id = some did →
      (∀ sc, isSceneId did = true → alLookup s.scenes did = some sc →
        onEntityDeletedItem env s p =
          .ok ({ s with scenes := alRemove s.scenes did },
               [Effect.setAvail sc.eid false, Effect.removeEntity sc.eid]) ∧
        alLookup (alRemove s.scenes did) did = none) ∧
      (isSceneId did = false → (alKeys s.parsed_devices).Nodup →
        onEntityDeletedItem env s p =
          .ok (deleteDevices env s (s.parsed_devices.filter (fun q => q.2.did = did))) ∧
        (∀ k, alLookup
            (deleteDevices env s (s.parsed_devices.filter (fun q => q.2.did = did))).1.parsed_devices k =
          match alLookup s.parsed_devices k with
          | some d => if d.did = did then none else some d
          | none => none) ∧
        (deleteDevices env s (s.parsed_devices.filter (fun q => q.2.did = did))).1.scenes = s.scenes ∧
        (∀ q ∈ s.parsed_devices, q.2.did = did →
          Effect.setAvail q.2.eid false ∈
            (deleteDevices env s (s.parsed_devices.filter (fun q => q.2.did = did))).2) ∧
        ((∀ q ∈ s.parsed_devices, q.2.did = did → (env.registry q.1).isSome = true) →
          (deleteDevices env s (s.parsed_devices.filter (fun q => q.2.did = did))).2.countP
              isRemoveDeviceEntry =
            (s.parsed_devices.filter (fun q => q.2.did = did)).length) ∧
        (deleteDevices env s (s.parsed_devices.filter (fun q => q.2.did = did))).2.countP
            isRemoveEntity = 0) := by
  intro env s p did hid
  constructor
  · intro sc hpre hsc
    constructor
    · simp [onEntityDeletedItem, hid, hpre, hsc]
    · rw [alLookup_alRemove]
      simp
  · intro hpre hnd
    refine ⟨?_, ?_, deleteDevices_scenes env _ s, ?_, ?_, deleteDevices_no_entity_removals env _ s⟩
    · simp [onEntityDeletedItem, hid, hpre]
    · intro k
      rw [deleteDevices_lookup]
      by_cases hk : k ∈ (s.parsed_devices.filter (fun q => q.2.did = did)).map Prod.fst
      · rw [if_pos hk]
        obtain ⟨d, hd, hdid⟩ := (mem_filter_keys_iff s.parsed_devices did k hnd).mp hk
        rw [hd]
        simp [hdid]
      · rw [if_neg hk]
        cases hl : alLookup s.parsed_devices k with
        | none => rfl
        | some d =>
          have hdid : ¬ d.did = did :=
            fun hdd => hk ((mem_filter_keys_iff s.parsed_devices did k hnd).mpr ⟨d, hl, hdd⟩)
          simp [hdid]
    · intro q hq hqdid
      exact deleteDevices_setAvail_mem env _ s q
        (List.mem_filter.mpr ⟨hq, by simpa using hqdid⟩)
    · intro hreg
      exact deleteDevices_count_removals env _ s
        (fun q hq => hreg q (List.mem_filter.mp hq).1 (by simpa using (List.mem_filter.mp hq).2))

/-- C2 witness: deleting the known scene and the device `d1` in the
populated state. -/
theorem C2_entity_deleted_witness :
    (onEntityDeletedItem env0 gw1 { id := some "scene-1" } =
      .ok ({ gw1 with scenes := alRemove gw1.scenes "scene-1" },
           [Effect.setAvail sceneEnt1.eid false, Effect.removeEntity sceneEnt1.eid])) ∧
    ((deleteDevices env0 gw1 (gw1.parsed_devices.filter (fun q => q.2.did = "d1"))).2.countP
        isRemoveDeviceEntry =
      (gw1.parsed_devices.filter (fun q => q.2.did = "d1")).length) :=
  ⟨((C2_entity_deleted env0 gw1 { id := some "scene-1" } "scene-1" rfl).1 sceneEnt1
      (by decide) (by decide)).1,
   ((C2_entity_deleted env0 gw1 { id := some "d1" } "d1" rfl).2
      (by decide) (by decide)).2.2.2.2.1 (by decide)⟩

/-! ## Claim C3 — idempotence of Device Setup -/

theorem attrNames_eq (l : List AttrObj) (h : ∀ a ∈ l, a.attr.isSome = true) :
    attrNames l = .ok (l.filterMap (fun a => a.attr)) := by
  induction l with
  | nil => rfl
  | cons a rest ih =>
    obtain ⟨n, hn⟩ := Option.isSome_iff_exists.mp (h a (List.mem_cons_self _ _))
    have hrest := ih (fun b hb => h b (List.mem_cons_of_mem _ hb))
    simp [attrNames, hn, hrest, Except.map]

theorem entity_upd_idem (b : Bool) (attrs : List AttrObj) (e : TerncyEntity)
    (h : (alKeys e.state).Nodup) :
    (((e.set_available b).update_state attrs).set_available b).update_state attrs =
      (e.set_available b).update_state attrs := by
  simp [TerncyEntity.set_available, TerncyEntity.update_state, mergeAttrs_idem _ _ h]

theorem entity_upd_nodup (b : Bool) (attrs : List AttrObj) (e : TerncyEntity)
    (h : (alKeys e.state).Nodup) :
    (alKeys ((e.set_available b).update_state attrs).state).Nodup := by
  simpa [TerncyEntity.set_available, TerncyEntity.update_state] using
    nodup_alKeys_mergeAttrs _ e.state h

theorem dev_upd_idem (online : Bool) (attrs : List AttrObj) (d : TerncyDevice)
    (hWF : devWF d) :
    (((d.set_available online).update_state attrs).set_available online).update_state attrs =
      (d.set_available online).update_state attrs := by
  simp only [TerncyDevice.set_available, TerncyDevice.update_state, List.map_map]
  congr 1
  apply List.map_congr_left
  intro e he
  exact entity_upd_idem online attrs e (hWF e he)

theorem dev_upd_WF (online : Bool) (attrs : List AttrObj) (d : TerncyDevice)
    (hWF : devWF d) : devWF ((d.set_available online).update_state attrs) := by
  intro en hen
  simp only [TerncyDevice.set_available, TerncyDevice.update_state, List.map_map,
    List.mem_map] at hen
  obtain ⟨e, he, heq⟩ := hen
  rw [← heq]
  exact entity_upd_nodup online attrs e (hWF e he)

theorem create_entity_nodup (eid : String) (desc : TerncyEntityDescription)
    (attributes : List AttrObj) : (alKeys (create_entity eid desc attributes).state).Nodup := by
  simpa [create_entity, TerncyEntity.update_state] using
    nodup_alKeys_mergeAttrs _ [] (by simp [alKeys])

theorem svcStep_WF (env : Env) (did : String) (online : Bool) (svc : SvcData)
    (o : Option TerncyDevice) (h : optDevWF o) :
    optDevWF (svcStep env did online svc o) := by
  intro d hd
  cases o with
  | some device =>
    simp only [svcStep] at hd
    rw [← Option.some.inj hd]
    exact dev_upd_WF online _ device (h device rfl)
  | none =>
    simp only [svcStep] at hd
    cases hsvc : svc.id with
    | none => rw [hsvc] at hd; exact absurd hd (by simp)
    | some eid =>
      rw [hsvc] at hd
      cases hpb : svc.profile.bind env.profiles with
      | none => rw [hpb] at hd; exact absurd hd (by simp)
      | some descs =>
        rw [hpb] at hd
        simp only at hd
        by_cases hde : (descs.filter (fun de => de.required_attrs.isEmpty ||
            de.required_attrs.all (fun r =>
              ((svc.attributes.getD []).filterMap (fun a => a.attr)).contains r))).isEmpty
        · rw [if_pos hde] at hd
          exact absurd hd (by simp)
        · rw [if_neg hde] at hd
          rw [← Option.some.inj hd]
          apply dev_upd_WF
          intro en hen
          simp only [List.mem_map] at hen
          obtain ⟨de, _, heq⟩ := hen
          rw [← heq]
          exact create_entity_nodup eid de _

theorem svcStep_idem (env : Env) (did : String) (online : Bool) (svc : SvcData)
    (o : Option TerncyDevice) (h : optDevWF o) :
    svcStep env did online svc (svcStep env did online svc o) =
      svcStep env did online svc o := by
  cases o with
  | some device =>
    simp only [svcStep]
    rw [dev_upd_idem online _ device (h device rfl)]
  | none =>
    cases hsvc : svc.id with
    | none => simp [svcStep, hsvc]
    | some eid =>
      cases hpb : svc.profile.bind env.profiles with
      | none => simp [svcStep, hsvc, hpb]
      | some descs =>
        by_cases hde : (descs.filter (fun de => de.required_attrs.isEmpty ||
            de.required_attrs.all (fun r =>
              ((svc.attributes.getD []).filterMap (fun a => a.attr)).contains r))).isEmpty = true
        · have h1 : svcStep env did online svc none = none := by
            simp only [svcStep, hsvc, hpb]
            rw [if_pos hde]
          rw [h1]
          exact h1
        · have h1 : svcStep env did online svc none =
              some ((((⟨did, eid, svc.profile, true,
                (descs.filter (fun de => de.required_attrs.isEmpty ||
                  de.required_attrs.all (fun r =>
                    ((svc.attributes.getD []).filterMap (fun a => a.attr)).contains r))).map
                  (fun de => create_entity eid de (svc.attributes.getD []))⟩ :
                    TerncyDevice).set_available online)).update_state (svc.attributes.getD [])) := by
            simp only [svcStep, hsvc, hpb]
            rw [if_neg hde]
          rw [h1]
          simp only [svcStep]
          rw [dev_upd_idem]
          intro en hen
          simp only [List.mem_map] at hen
          obtain ⟨de, _, heq⟩ := hen
          rw [← heq]
          exact create_entity_nodup eid de _

theorem svcFold_no_match (env : Env) (did : String) (online : Bool) :
    ∀ (svcs : List SvcData) (k : String) (o : Option TerncyDevice),
      (∀ svc ∈ svcs, ¬ svc.id = some k) →
      svcFold env did online svcs k o = o := by
  intro svcs
  induction svcs with
  | nil => intro k o _; rfl
  | cons svc rest ih =>
    intro k o h
    rw [svcFold, if_neg (h svc (List.mem_cons_self _ _))]
    exact ih k o (fun q hq => h q (List.mem_cons_of_mem _ hq))

theorem svcFold_eq_find (env : Env) (did : String) (online : Bool) :
    ∀ (svcs : List SvcData) (k : String) (o : Option TerncyDevice),
      (svcs.filterMap (fun svc => svc.id)).Nodup →
      svcFold env did online svcs k o =
        match svcs.find? (fun svc => decide (svc.id = some k)) with
        | some svc => svcStep env did online svc o
        | none => o := by
  intro svcs
  induction svcs with
  | nil => intro k o _; rfl
  | cons svc rest ih =>
    intro k o hnd
    rw [svcFold]
    by_cases hid : svc.id = some k
    · rw [if_pos hid]
      rw [List.find?_cons_of_pos _ (by simp [hid])]
      apply svcFold_no_match
      intro q hq hqid
      have hk : k ∈ rest.filterMap (fun svc => svc.id) :=
        List.mem_filterMap.mpr ⟨q, hq, hqid⟩
      rw [List.filterMap_cons, hid] at hnd
      exact (List.nodup_cons.mp hnd).1 hk
    · rw [if_neg hid]
      rw [List.find?_cons_of_neg _ (by simp [hid])]
      apply ih
      rw [List.filterMap_cons] at hnd
      cases hsvc : svc.id with
      | none => rwa [hsvc] at hnd
      | some i =>
        rw [hsvc] at hnd
        exact (List.nodup_cons.mp hnd).2

theorem setupSvcs_char (env : Env) (did : String) (online : Bool) :
    ∀ (svcs : List SvcData) (s : GwState),
      (∀ svc ∈ svcs, svcWF svc) →
      ∃ r : GwState × List Effect, setupSvcs env s did online svcs = .ok r ∧
        ∀ k, alLookup r.1.parsed_devices k =
          svcFold env did online svcs k (alLookup s.parsed_devices k) := by
  intro svcs
  induction svcs with
  | nil =>
    intro s _
    exact ⟨(s, []), rfl, fun k => rfl⟩
  | cons svc rest ih =>
    intro s h
    obtain ⟨hids, hnames, hattrs⟩ := h svc (List.mem_cons_self _ _)
    obtain ⟨eid, heid⟩ := Option.isSome_iff_exists.mp hids
    obtain ⟨name0, hname⟩ := Option.isSome_iff_exists.mp hnames
    have hrest : ∀ q ∈ rest, svcWF q := fun q hq => h q (List.mem_cons_of_mem _ hq)
    have hguard : svc.id = some eid → ∀ k, ¬ k = eid → ¬ svc.id = some k :=
      fun hi k hk hc => hk (Option.some.inj (hi ▸ hc)).symm
    cases hdev : alLookup s.parsed_devices eid with
    | some device =>
      obtain ⟨r, hr, hrk⟩ := ih { s with parsed_devices := (alSet s.parsed_devices eid
        ((device.set_available online).update_state (svc.attributes.getD []))) } hrest
      refine ⟨(r.1, Effect.setAvail device.eid online :: r.2), ?_, ?_⟩
      · simp only [setupSvcs, heid, hname, hdev]
        rw [hr]
        rfl
      · intro k
        rw [hrk k, svcFold]
        by_cases hk : k = eid
        · subst hk
          congr 1
          rw [if_pos (by rw [heid]), hdev]
          show alLookup (alSet s.parsed_devices k
            ((device.set_available online).update_state (svc.attributes.getD []))) k = _
          rw [alLookup_alSet_self]
          rfl
        · congr 1
          rw [if_neg (hguard heid k hk)]
          show alLookup (alSet s.parsed_devices eid
            ((device.set_available online).update_state (svc.attributes.getD []))) k = _
          rw [alLookup_alSet_ne _ _ _ _ hk]
    | none =>
      cases hpb : svc.profile.bind env.profiles with
      | none =>
        obtain ⟨r, hr, hrk⟩ := ih s hrest
        refine ⟨(r.1, Effect.logDebug "Unsupported profile" :: Effect.setAvail eid online :: r.2),
          ?_, ?_⟩
        · simp only [setupSvcs, heid, hname, hdev, hpb]
          rw [hr]
          rfl
        · intro k
          rw [hrk k, svcFold]
          by_cases hk : k = eid
          · subst hk
            congr 1
            rw [if_pos (by rw [heid]), hdev]
            have hstep : svcStep env did online svc none = none := by
              simp only [svcStep, heid, hpb]
            rw [hstep]
          · congr 1
            rw [if_neg (hguard heid k hk)]
      | some descs =>
        have hattrs2 : attrNames (svc.attributes.getD []) =
            .ok ((svc.attributes.getD []).filterMap (fun a => a.attr)) :=
          attrNames_eq _ hattrs
        by_cases hde : (descs.filter (fun de => de.required_attrs.isEmpty ||
            de.required_attrs.all (fun r =>
              ((svc.attributes.getD []).filterMap (fun a => a.attr)).contains r))).isEmpty = true
        · obtain ⟨r, hr, hrk⟩ := ih s hrest
          refine ⟨(r.1, Effect.setAvail eid online :: r.2), ?_, ?_⟩
          · simp only [setupSvcs, heid, hname, hdev, hpb, hattrs2]
            rw [if_pos hde, hr]
            rfl
          · intro k
            rw [hrk k, svcFold]
            by_cases hk : k = eid
            · subst hk
              congr 1
              rw [if_pos (by rw [heid]), hdev]
              have hstep : svcStep env did online svc none = none := by
                simp only [svcStep, heid, hpb]
                rw [if_pos hde]
              rw [hstep]
            · congr 1
              rw [if_neg (hguard heid k hk)]
        · obtain ⟨r, hr, hrk⟩ := ih { s with parsed_devices := (alSet s.parsed_devices eid
            ((((⟨did, eid, svc.profile, true,
              (descs.filter (fun de => de.required_attrs.isEmpty ||
                de.required_attrs.all (fun r =>
                  ((svc.attributes.getD []).filterMap (fun a => a.attr)).contains r))).map
                (fun de => create_entity eid de (svc.attributes.getD []))⟩ :
                  TerncyDevice).set_available online)).update_state (svc.attributes.getD []))) } hrest
          refine ⟨(r.1, Effect.registryCreate eid ::
              ((descs.filter (fun de => de.required_attrs.isEmpty ||
                de.required_attrs.all (fun r =>
                  ((svc.attributes.getD []).filterMap (fun a => a.attr)).contains r))).map
                (fun de => Effect.addEntity eid de.key) ++
                Effect.setAvail eid online :: r.2)), ?_, ?_⟩
          · simp only [setupSvcs, heid, hname, hdev, hpb, hattrs2]
            rw [if_neg hde, hr]
            rfl
          · intro k
            rw [hrk k, svcFold]
            by_cases hk : k = eid
            · subst hk
              congr 1
              rw [if_pos (by rw [heid]), hdev]
              have hstep : svcStep env did online svc none =
                  some ((((⟨did, k, svc.profile, true,
                    (descs.filter (fun de => de.required_attrs.isEmpty ||
                      de.required_attrs.all (fun r =>
                        ((svc.attributes.getD []).filterMap (fun a => a.attr)).contains r))).map
                      (fun de => create_entity k de (svc.attributes.getD []))⟩ :
                        TerncyDevice).set_available online)).update_state
                    (svc.attributes.getD [])) := by
                simp only [svcStep, heid, hpb]
                rw [if_neg hde]
              rw [hstep]
              show alLookup (alSet s.parsed_devices k
                ((((⟨did, k, svc.profile, true,
                  (descs.filter (fun de => de.required_attrs.isEmpty ||
                    de.required_attrs.all (fun r =>
                      ((svc.attributes.getD []).filterMap (fun a => a.attr)).contains r))).map
                    (fun de => create_entity k de (svc.attributes.getD []))⟩ :
                      TerncyDevice).set_available online)).update_state (svc.attributes.getD []))) k = _
              rw [alLookup_alSet_self]
            · congr 1
              rw [if_neg (hguard heid k hk)]
              show alLookup (alSet s.parsed_devices eid
                ((((⟨did, eid, svc.profile, true,
                  (descs.filter (fun de => de.required_attrs.isEmpty ||
                    de.required_attrs.all (fun r =>
                      ((svc.attributes.getD []).filterMap (fun a => a.attr)).contains r))).map
                    (fun de => create_entity eid de (svc.attributes.getD []))⟩ :
                      TerncyDevice).set_available online)).update_state (svc.attributes.getD []))) k = _
              rw [alLookup_alSet_ne _ _ _ _ hk]

theorem svcFold_WF (env : Env) (did : String) (online : Bool) :
    ∀ (svcs : List SvcData) (k : String) (o : Option TerncyDevice),
      optDevWF o → optDevWF (svcFold env did online svcs k o) := by
  intro svcs
  induction svcs with
  | nil => intro k o h; exact h
  | cons svc rest ih =>
    intro k o h
    rw [svcFold]
    by_cases hid : svc.id = some k
    · rw [if_pos hid]
      exact ih k _ (svcStep_WF env did online svc o h)
    · rw [if_neg hid]
      exact ih k o h

theorem availKey_idem (env : Env) (p : Payload) (k : String)
    (hnd : ((p.services.getD []).filterMap (fun svc => svc.id)).Nodup)
    (o : Option TerncyDevice) (h : optDevWF o) :
    availKeyFun env p k (availKeyFun env p k o) = availKeyFun env p k o := by
  have hc := svcFold_eq_find env (p.id.getD "") (p.online.getD true) (p.services.getD [])
  cases hf : (p.services.getD []).find? (fun svc => decide (svc.id = some k)) with
  | none =>
    have h1 : availKeyFun env p k o = o := by
      simp only [availKeyFun]
      rw [hc k o hnd, hf]
    rw [h1]
    exact h1
  | some svc =>
    have h1 : availKeyFun env p k o =
        svcStep env (p.id.getD "") (p.online.getD true) svc o := by
      simp only [availKeyFun]
      rw [hc k o hnd, hf]
    have h2 : availKeyFun env p k (svcStep env (p.id.getD "") (p.online.getD true) svc o) =
        svcStep env (p.id.getD "") (p.online.getD true) svc
          (svcStep env (p.id.getD "") (p.online.getD true) svc o) := by
      simp only [availKeyFun]
      rw [hc k _ hnd, hf]
    rw [h1, h2]
    exact svcStep_idem env (p.id.getD "") (p.online.getD true) svc o h

theorem onAvail_char (env : Env) (p : Payload) (hp : availWF p) :
    ∀ s : GwState, ∃ r : GwState × List Effect,
      onEntityAvailableLoop env s [p] = .ok r ∧
      ∀ k, alLookup r.1.parsed_devices k =
        availKeyFun env p k (alLookup s.parsed_devices k) := by
  intro s
  obtain ⟨hty, hid, hsvcs⟩ := hp
  obtain ⟨did, hdid⟩ := Option.isSome_iff_exists.mp hid
  obtain ⟨⟨s1, effs⟩, hr, hrk⟩ :=
    setupSvcs_char env did (p.online.getD true) (p.services.getD []) s hsvcs
  refine ⟨(s1, ((if did = s.uniqueId then [Effect.registryCreate s.uniqueId] else []) ++ effs)
      ++ []), ?_, ?_⟩
  · simp only [onEntityAvailableLoop, hty]
    rw [if_pos trivial]
    simp only [setup_device, hdid, hr]
  · intro k
    simp only [availKeyFun, hdid, Option.getD_some]
    exact hrk k

theorem iterAvail_char (env : Env) (p : Payload) (hp : availWF p) :
    ∀ (n : Nat) (s : GwState), ∃ s2, iterAvail env p n s = .ok s2 ∧
      ∀ k, alLookup s2.parsed_devices k =
        (availKeyFun env p k)^[n] (alLookup s.parsed_devices k) := by
  intro n
  induction n with
  | zero =>
    intro s
    exact ⟨s, rfl, fun k => rfl⟩
  | succ n ihn =>
    intro s
    obtain ⟨⟨s1, effs⟩, hr, hrk⟩ := onAvail_char env p hp s
    obtain ⟨s2, h2, h2k⟩ := ihn s1
    refine ⟨s2, ?_, ?_⟩
    · simp only [iterAvail, hr]
      exact h2
    · intro k
      rw [h2k k, hrk k, Function.iterate_succ_apply]

theorem iterate_fix {α : Type} (f : α → α) (P : α → Prop)
    (hf : ∀ x, P x → f (f x) = f x) (hP : ∀ x, P x → P (f x)) :
    ∀ (n : Nat) (x : α), P x → f^[n + 1] x = f x := by
  intro n
  induction n with
  | zero =>
    intro x _
    simp
  | succ n ihn =>
    intro x hx
    rw [Function.iterate_succ_apply, ihn (f x) (hP x hx)]
    exact hf x hx

theorem optWF_of_state (s : GwState) (h : stateWF s) (k : String) :
    optDevWF (alLookup s.parsed_devices k) :=
  fun d hd => h (k, d) (mem_of_alLookup _ _ _ hd)

/-- C3: processing the same wellformed `entityAvailable` device event
`n + 1` times leaves, for every eid, exactly the Device record that
processing it once leaves — Device Setup is idempotent.  `stateWF`
(entity states are dicts) and distinct service ids are the wellformedness
of real hub data; creation maintains both. -/
theorem C3_setup_device_idempotent :
    ∀ (env : Env) (p : Payload) (s : GwState) (n : Nat),
      availWF p →
      ((p.services.getD []).filterMap (fun svc => svc.id)).Nodup →
      stateWF s →
      ∃ s1, iterAvail env p 1 s = .ok s1 ∧
        ∃ s2, iterAvail env p (n + 1) s = .ok s2 ∧
          ∀ k, alLookup s2.parsed_devices k = alLookup s1.parsed_devices k := by
  intro env p s n hp hnd hWF
  obtain ⟨s1, h1, h1k⟩ := iterAvail_char env p hp 1 s
  obtain ⟨s2, h2, h2k⟩ := iterAvail_char env p hp (n + 1) s
  refine ⟨s1, h1, s2, h2, fun k => ?_⟩
  rw [h2k k, h1k k]
  rw [iterate_fix (availKeyFun env p k) optDevWF
    (fun o ho => availKey_idem env p k hnd o ho)
    (fun o ho => svcFold_WF env (p.id.getD "") (p.online.getD true) (p.services.getD []) k o ho)
    n _ (optWF_of_state s hWF k)]
  rw [Function.iterate_one]

/-- C3 witness: the sample device payload, processed once versus three
times from the fresh state. -/
theorem C3_setup_device_idempotent_witness :
    ∃ s1, iterAvail env0 payloadAvail1 1 gw0 = .ok s1 ∧
      ∃ s2, iterAvail env0 payloadAvail1 3 gw0 = .ok s2 ∧
        ∀ k, alLookup s2.parsed_devices k = alLookup s1.parsed_devices k :=
  C3_setup_device_idempotent env0 payloadAvail1 gw0 2 (by decide) (by decide) (by decide)

end TerncyGw
